import Mathlib

/-!
Verification development for the qr-pdf-compress chunked compression
orchestrator.  The definitions below are shallow embeddings of the
TypeScript source: `src/core/presets.ts`, `src/core/error-handler.ts`,
`src/core/progress.ts` (the ProgressTracker), `src/core/orchestrator.ts`
(`orchestrateCompression`, `compressWithPreset`, `mergeChunks`),
`src/utils/pdf-utils.ts` (`isValidPDF`) and `src/api/compress.ts`
(`compress`).  Byte buffers are `List Nat`; JavaScript numbers that hold
fractions are `Rat`; wall-clock reads (Date.now) are abstracted away;
the external pdf-lib / worker services (page extraction, per-chunk
compression, multi-document merge, WASM loading) are parameters of the
embedding, since the orchestrator treats them as black boxes.
-/

namespace QrPdfCompress

/-- The three preset names of `src/core/presets.ts`. -/
inductive CompressionPreset where
  | lossless
  | balanced
  | max
deriving DecidableEq, Repr

/-- Progress phases from the ProgressEvent type. -/
inductive Phase where
  | chunking
  | compressing
  | merging
  | errorRecovery
deriving DecidableEq, Repr

/-- Merge strategies recognized by `mergeChunks` (default is worker). -/
inductive MergeStrategy where
  | worker
  | main
deriving DecidableEq, Repr

/-- Rendering of preset names, used when the source interpolates the
preset into a message string. -/
def presetName : CompressionPreset → String
  | .lossless => "lossless"
  | .balanced => "balanced"
  | .max => "max"

/-- Aggressiveness rank used only as a termination measure for the
fallback-chain loop (max is most aggressive). -/
def presetRank : CompressionPreset → Nat
  | .lossless => 0
  | .balanced => 1
  | .max => 2

/-- `getFallbackPreset` from `src/core/presets.ts`: the next milder
preset, or none for lossless. -/
def getFallbackPreset : CompressionPreset → Option CompressionPreset
  | .max => some .balanced
  | .balanced => some .lossless
  | .lossless => none

/-- Rank decreases along fallbacks; justifies the chain loop. -/
theorem presetRank_fallback_lt {p q : CompressionPreset}
    (h : getFallbackPreset p = some q) : presetRank q < presetRank p := by
  cases p <;> simp [getFallbackPreset] at h <;> subst h <;> simp [presetRank]

/-- `getPresetFallbackChain` from `src/core/presets.ts`: the while-loop
that pushes fallbacks onto `[preset]` until none exists. -/
def getPresetFallbackChain (preset : CompressionPreset) : List CompressionPreset :=
  preset ::
    (match h : getFallbackPreset preset with
     | none => []
     | some next => getPresetFallbackChain next)
termination_by presetRank preset
decreasing_by exact presetRank_fallback_lt h

/-!  Chunk planning arithmetic of `compressWithPreset`
(`src/core/orchestrator.ts`): `numChunks = Math.ceil(totalPages / chunkSize)`,
chunk i covers pages `[i*chunkSize, min((i+1)*chunkSize, totalPages))`. -/

/-- `Math.ceil(totalPages / chunkSize)` over naturals. -/
def numChunks (totalPages chunkSize : Nat) : Nat :=
  (totalPages + chunkSize - 1) / chunkSize

/-- `startPage = i * chunkSize`. -/
def chunkStart (chunkSize i : Nat) : Nat := i * chunkSize

/-- `endPage = Math.min((i + 1) * chunkSize, totalPages)`. -/
def chunkEnd (totalPages chunkSize i : Nat) : Nat :=
  min ((i + 1) * chunkSize) totalPages

/-- Sizes of the chunks produced by the plan, in order. -/
def chunkSizesList (totalPages chunkSize : Nat) : List Nat :=
  (List.range (numChunks totalPages chunkSize)).map
    (fun i => chunkEnd totalPages chunkSize i - chunkStart chunkSize i)

/-!  Error model.  JavaScript exceptions reaching the orchestrator are
either plain `Error` values, `TypeError`s, or the CompressionError class
of `src/api/types.ts` (message, attemptedPreset, originalSize, phase?,
underlyingError?).  The underlying error is recorded by its message. -/

/-- Errors thrown/rejected through the pipeline. -/
inductive JSError where
  | plainErr (message : String)
  | typeErr (message : String)
  | compressionErr (message : String) (attemptedPreset : CompressionPreset)
      (originalSize : Nat) (phase : Option Phase) (underlying : Option String)
deriving DecidableEq, Repr

/-- `error.message` of a thrown value. -/
def JSError.msg : JSError → String
  | .plainErr m => m
  | .typeErr m => m
  | .compressionErr m _ _ _ _ => m

/-- Error taxonomy of `src/core/error-handler.ts`. -/
inductive ErrorType where
  | INVALID_PDF
  | OUT_OF_MEMORY
  | WASM_LOAD_FAILED
  | WORKER_ERROR
  | TIMEOUT
  | VALIDATION_FAILED
  | UNKNOWN
deriving DecidableEq, Repr

/-- Occurrence of `pat` as a contiguous subsequence of `s`. -/
def containsSeq (pat : List Char) : List Char → Bool
  | [] => pat.isEmpty
  | c :: cs => pat.isPrefixOf (c :: cs) || containsSeq pat cs

/-- `message.includes(pat)`: substring containment, on character
lists. -/
def includesSubstr (s : List Char) (pat : String) : Bool :=
  containsSeq pat.toList s

/-- `message.toLowerCase()` for the ASCII messages of this code base,
as a character list. -/
def lowerChars (s : String) : List Char :=
  s.toList.map Char.toLower

/-- `classifyError` from `src/core/error-handler.ts`: substring matching
on the lower-cased message. -/
def classifyError (e : JSError) : ErrorType :=
  let message := lowerChars e.msg
  if includesSubstr message "invalid pdf" || includesSubstr message "not a valid pdf" then
    .INVALID_PDF
  else if includesSubstr message "out of memory" || includesSubstr message "memory"
      || includesSubstr message "heap" then
    .OUT_OF_MEMORY
  else if includesSubstr message "wasm" || includesSubstr message "webassembly" then
    .WASM_LOAD_FAILED
  else if includesSubstr message "worker" then
    .WORKER_ERROR
  else if includesSubstr message "timeout" || includesSubstr message "timed out" then
    .TIMEOUT
  else if includesSubstr message "validation" || includesSubstr message "corrupt" then
    .VALIDATION_FAILED
  else
    .UNKNOWN

/-- `isRecoverableError` from `src/core/error-handler.ts`. -/
def isRecoverableError : ErrorType → Bool
  | .OUT_OF_MEMORY => true
  | .TIMEOUT => true
  | .WORKER_ERROR => true
  | .UNKNOWN => true
  | .INVALID_PDF => false
  | .WASM_LOAD_FAILED => false
  | .VALIDATION_FAILED => false

/-- `getUserFriendlyErrorMessage` from `src/core/error-handler.ts`
(the source wraps no dynamic parts other than the preset name). -/
def getUserFriendlyErrorMessage (errorType : ErrorType) (preset : CompressionPreset) : String :=
  match errorType with
  | .INVALID_PDF => "The provided file is not a valid PDF or is corrupted."
  | .OUT_OF_MEMORY =>
      "Compression with " ++ presetName preset ++
        " preset exceeded available memory. Try using a lighter preset or smaller chunk size."
  | .WASM_LOAD_FAILED =>
      "Failed to load the compression engine. Please check your internet connection and try again."
  | .WORKER_ERROR =>
      "Worker failed during " ++ presetName preset ++
        " compression. This may be due to browser limitations."
  | .TIMEOUT =>
      "Compression with " ++ presetName preset ++
        " preset timed out. Try using a lighter preset or smaller chunk size."
  | .VALIDATION_FAILED => "The compressed PDF failed validation. The file may be corrupted."
  | .UNKNOWN => "An unexpected error occurred during compression."

/-- Return value of `handleErrorWithGracefulDegradation`. -/
structure DegradationDecision where
  shouldRetry : Bool
  nextPreset : Option CompressionPreset := none
  errorMessage : Option String := none
deriving DecidableEq, Repr

/-- `handleErrorWithGracefulDegradation` from `src/core/error-handler.ts`
(pure decision part; the onProgress notification it may emit carries no
control flow). -/
def handleErrorWithGracefulDegradation (e : JSError) (currentPreset : CompressionPreset)
    (gracefulDegradation : Bool) : DegradationDecision :=
  let errorType := classifyError e
  let isRecoverable := isRecoverableError errorType
  if !isRecoverable || !gracefulDegradation then
    { shouldRetry := false
      errorMessage := some (getUserFriendlyErrorMessage errorType currentPreset) }
  else
    match getFallbackPreset currentPreset with
    | none =>
        { shouldRetry := false
          errorMessage := some ("All compression presets failed. " ++
            getUserFriendlyErrorMessage errorType currentPreset) }
    | some fallbackPreset =>
        { shouldRetry := true, nextPreset := some fallbackPreset }

/-- `createCompressionError` from `src/core/error-handler.ts` (defined in
the source but never invoked by the orchestrator). -/
def createCompressionError (e : JSError) (preset : CompressionPreset)
    (originalSize : Nat) (phase : Option Phase) : JSError :=
  .compressionErr (getUserFriendlyErrorMessage (classifyError e) preset)
    preset originalSize phase (some e.msg)

/-!  PDF validation from `src/utils/pdf-utils.ts`. -/

/-- The `%PDF` magic bytes. -/
def PDF_MAGIC_BYTES : List Nat := [0x25, 0x50, 0x44, 0x46]

/-- `isValidPDF`: at least 4 bytes and the magic prefix. -/
def isValidPDF (buffer : List Nat) : Bool :=
  decide (4 ≤ buffer.length) && decide (buffer.take 4 = PDF_MAGIC_BYTES)

/-!  Data model of `src/api/types.ts`.  `processingTime` (a Date.now
difference) is wall-clock and is not modelled.  `ratio` is modelled by
the field `ratioVal`, `bytesSaved` is an integer since the JS subtraction
may be negative. -/

/-- Stats of one full pass before presetUsed/processingTime are attached. -/
structure PassStats where
  originalSize : Nat
  compressedSize : Nat
  ratioVal : Rat
  bytesSaved : Int
  percentageSaved : Rat
  chunksProcessed : Nat
deriving DecidableEq, Repr

/-- Result of `compressWithPreset`. -/
structure PassResult where
  pdf : List Nat
  stats : PassStats
deriving DecidableEq, Repr

/-- The final `CompressionStats` (minus the wall-clock processingTime). -/
structure CompressionStats where
  originalSize : Nat
  compressedSize : Nat
  ratioVal : Rat
  bytesSaved : Int
  percentageSaved : Rat
  presetUsed : CompressionPreset
  chunksProcessed : Nat
deriving DecidableEq, Repr

/-- The final `CompressionResult`. -/
structure CompressionResult where
  pdf : List Nat
  stats : CompressionStats
  warning : Option String
deriving DecidableEq, Repr

/-- The options reaching `orchestrateCompression`.  Fields that are only
threaded through to the external services (chunkSize, targetDPI,
jpegQuality, preserveMetadata, enableRasterization, mergeStrategy,
timeout, wasmUrl) are modelled as parameters of the per-preset pass
function instead; `hasOnProgress` records whether an onProgress callback
was supplied. -/
structure CompressionOptions where
  preset : CompressionPreset
  gracefulDegradation : Bool := true
  hasOnProgress : Bool := false
deriving DecidableEq, Repr

/-- Warning attached when a milder preset than the requested one
succeeded (source text wraps the names in single quotes). -/
def degradedWarning (requested used : CompressionPreset) : String :=
  "Original preset " ++ presetName requested ++ " failed, used " ++
    presetName used ++ " instead."

/-- Warning of the original-bytes fallback result. -/
def fallbackWarningMsg : String := "Compression failed. Returning original PDF."

/-- Result built by a successful pass inside the preset loop:
`{ pdf, stats: {...result.stats, presetUsed: preset}, warning }`. -/
def mkSuccessResult (requested used : CompressionPreset) (res : PassResult) :
    CompressionResult :=
  { pdf := res.pdf
    stats :=
      { originalSize := res.stats.originalSize
        compressedSize := res.stats.compressedSize
        ratioVal := res.stats.ratioVal
        bytesSaved := res.stats.bytesSaved
        percentageSaved := res.stats.percentageSaved
        presetUsed := used
        chunksProcessed := res.stats.chunksProcessed }
    warning := if used ≠ requested then some (degradedWarning requested used) else none }

/-- The `All presets failed, return original PDF` result:
a copy of the input bytes with identity stats and a warning. -/
def fallbackResult (pdfBuffer : List Nat) (requested : CompressionPreset) :
    CompressionResult :=
  { pdf := pdfBuffer
    stats :=
      { originalSize := pdfBuffer.length
        compressedSize := pdfBuffer.length
        ratioVal := 1
        bytesSaved := 0
        percentageSaved := 0
        presetUsed := requested
        chunksProcessed := 0 }
    warning := some fallbackWarningMsg }

/-- Exit of the `for preset of presetChain` loop, instrumented with the
list of presets whose pass was actually invoked (in order). -/
inductive LoopOutcome where
  | returned (r : CompressionResult) (attempted : List CompressionPreset)
  | fellThrough (lastError : Option JSError) (attempted : List CompressionPreset)
deriving DecidableEq, Repr

/-- Prepend a preset to the attempted list of an outcome. -/
def LoopOutcome.consAttempt (p : CompressionPreset) : LoopOutcome → LoopOutcome
  | .returned r as => .returned r (p :: as)
  | .fellThrough le as => .fellThrough le (p :: as)

/-- When the loop falls off the end, `lastError` holds the error of the
final failed iteration; later iterations overwrite it, so a fall-through
after `p` with error `e` keeps any later error and uses `e` only when no
later iteration recorded one. -/
def LoopOutcome.withLastError (o : LoopOutcome) (e : JSError) : LoopOutcome :=
  match o with
  | .returned r as => .returned r as
  | .fellThrough none as => .fellThrough (some e) as
  | .fellThrough (some le) as => .fellThrough (some le) as

/-- The body of the preset loop in `orchestrateCompression`
(`src/core/orchestrator.ts`).  `f` is the outcome of
`compressWithPreset` for each preset; `lastOfChain` is
`presetChain[presetChain.length - 1]`.  On failure the loop breaks when
the preset is the last of the chain; otherwise, only when an onProgress
callback is present, it consults `handleErrorWithGracefulDegradation`
(always with `true` for the degradation flag, as in the source) and
breaks when that says not to retry. -/
def tryPresets (opts : CompressionOptions)
    (f : CompressionPreset → Except JSError PassResult)
    (lastOfChain : CompressionPreset) :
    List CompressionPreset → LoopOutcome
  | [] => .fellThrough none []
  | p :: rest =>
    match f p with
    | .ok res => .returned (mkSuccessResult opts.preset p res) [p]
    | .error e =>
      if p = lastOfChain then .fellThrough (some e) [p]
      else if opts.hasOnProgress then
        let d := handleErrorWithGracefulDegradation e p true
        if d.shouldRetry then (tryPresets opts f lastOfChain rest).withLastError e |>.consAttempt p
        else .fellThrough (some e) [p]
      else (tryPresets opts f lastOfChain rest).withLastError e |>.consAttempt p

/-- `orchestrateCompression` from `src/core/orchestrator.ts`,
instrumented: the second component lists the presets whose pass was
invoked.  `pdfBuffer.slice(0)` is a byte-identical copy, so the fallback
result carries `pdfBuffer` itself. -/
def orchestrateCompression (pdfBuffer : List Nat) (opts : CompressionOptions)
    (f : CompressionPreset → Except JSError PassResult) :
    Except JSError CompressionResult × List CompressionPreset :=
  if isValidPDF pdfBuffer = false then
    (.error (.compressionErr "Invalid PDF file" opts.preset pdfBuffer.length none none), [])
  else
    let presetChain :=
      if opts.gracefulDegradation then getPresetFallbackChain opts.preset
      else [opts.preset]
    match tryPresets opts f (presetChain.getLastD opts.preset) presetChain with
    | .returned r attempted => (.ok r, attempted)
    | .fellThrough le attempted =>
      if opts.gracefulDegradation then
        (.ok (fallbackResult pdfBuffer opts.preset), attempted)
      else
        (.error (le.getD
          (.compressionErr "Compression failed" opts.preset pdfBuffer.length none none)),
         attempted)

/-!  Data flow of one successful pass of `compressWithPreset` plus the
`mergeChunks` dispatch (`src/core/orchestrator.ts`).  The external
services are parameters: `extract start end` models
`extractPages(pdfBuffer, startPage, endPage)`, `cf i bytes` models the
worker round-trip of `compressChunk` for chunk `i`, and `mrg chunks`
models `mergePDFs` (used identically by the in-thread branch and by the
merge worker). -/

/-- `mergeChunks`: with the main-thread strategy or a single chunk, a
single chunk is returned unchanged and several chunks are merged
in-thread; otherwise the merge worker performs the same merge. -/
def mergeChunksModel (strategy : MergeStrategy) (chunks : List (List Nat))
    (mrg : List (List Nat) → List Nat) : List Nat :=
  if strategy = .main ∨ chunks.length = 1 then
    if chunks.length = 1 then chunks.headI
    else mrg chunks
  else mrg chunks

/-- The success path of `compressWithPreset` for a document of
`totalPages` pages split at `chunkSize` pages per chunk: extract each
planned range, compress it, merge, and compute the stats exactly as the
source does (`totalOriginalSize` is the sum of the extracted chunk byte
lengths, `totalCompressedSize` the byte length of the merged artifact). -/
def compressWithPresetModel (totalPages chunkSize : Nat)
    (extract : Nat → Nat → List Nat)
    (cf : Nat → List Nat → List Nat)
    (mrg : List (List Nat) → List Nat)
    (strategy : MergeStrategy) : PassResult :=
  let n := numChunks totalPages chunkSize
  let chunkData := (List.range n).map (fun i =>
    let chunkPdf := extract (i * chunkSize) (min ((i + 1) * chunkSize) totalPages)
    let compressed := cf i chunkPdf
    (chunkPdf.length, compressed))
  let compressedChunks := chunkData.map (fun d => d.2)
  let mergedPdf := mergeChunksModel strategy compressedChunks mrg
  let totalOriginalSize : Nat := (chunkData.map (fun d => d.1)).sum
  let totalCompressedSize : Nat := mergedPdf.length
  let bytesSaved : Int := (totalOriginalSize : Int) - (totalCompressedSize : Int)
  { pdf := mergedPdf
    stats :=
      { originalSize := totalOriginalSize
        compressedSize := totalCompressedSize
        ratioVal := (totalCompressedSize : Rat) / (totalOriginalSize : Rat)
        bytesSaved := bytesSaved
        percentageSaved := ((bytesSaved : Rat) / (totalOriginalSize : Rat)) * 100
        chunksProcessed := n } }

/-!  The public `compress` wrapper of `src/api/compress.ts`.  The
`instanceof ArrayBuffer` guard is a typing fact in the embedding; the
remaining steps run in source order: empty-buffer check, option
defaulting, preset validation, WASM load, orchestration.
`gracefulDegradation !== false` is `gdOpt.getD true` for an optional
boolean option. -/

/-- Names accepted by the preset validation. -/
def validPresetNames : List String := ["lossless", "balanced", "max"]

/-- Conversion from a validated preset name; defaults to balanced. -/
def presetOfStringD (s : String) : CompressionPreset :=
  if s = "lossless" then .lossless
  else if s = "max" then .max
  else .balanced

/-- `compress(pdfBuffer, options)`; `wasmLoad` models `loadWASM`. -/
def compress (pdfBuffer : List Nat) (presetOpt : Option String)
    (gdOpt : Option Bool) (hasOnProgress : Bool)
    (wasmLoad : Except String Unit)
    (f : CompressionPreset → Except JSError PassResult) :
    Except JSError CompressionResult :=
  if pdfBuffer.length = 0 then
    .error (.compressionErr "Empty PDF buffer" .lossless 0 none none)
  else
    let presetStr := presetOpt.getD "balanced"
    if presetStr ∈ validPresetNames then
      match wasmLoad with
      | .error m =>
          .error (.compressionErr "Failed to load compression engine"
            (presetOfStringD presetStr) pdfBuffer.length (some .chunking) (some m))
      | .ok _ =>
          (orchestrateCompression pdfBuffer
            { preset := presetOfStringD presetStr
              gracefulDegradation := gdOpt.getD true
              hasOnProgress := hasOnProgress } f).1
    else
      .error (.typeErr ("Invalid preset: " ++ presetStr ++
        ". Must be lossless, balanced, or max."))

/-!  ProgressTracker from `src/core/progress.ts`.  Progress percentages
are rationals; `estimatedTimeRemaining` uses `Math.ceil`.  Each method
returns the updated state together with the list of events it emits. -/

/-- A ProgressEvent as delivered to the onProgress callback. -/
structure PEvent where
  phase : Phase
  progressVal : Rat
  currentChunk : Option Nat := none
  totalChunksE : Option Nat := none
  eta : Option Int := none
  messageE : Option String := none
deriving DecidableEq, Repr

/-- Mutable state of a ProgressTracker instance (startTime omitted:
wall clock). -/
structure TrackerState where
  totalChunks : Nat := 0
  completedChunks : Nat := 0
  currentPhase : Phase := .chunking
  chunkTimes : List Rat := []
deriving DecidableEq, Repr

namespace ProgressTracker

/-- `calculateProgress`: chunking 5, compressing `10 + (completed/total)*80`,
merging 95, error-recovery `completed/total*90`; 0 while totalChunks is 0. -/
def calculateProgress (st : TrackerState) : Rat :=
  if st.totalChunks = 0 then 0
  else
    match st.currentPhase with
    | .chunking => 5
    | .compressing => 10 + ((st.completedChunks : Rat) / (st.totalChunks : Rat)) * 80
    | .merging => 95
    | .errorRecovery => ((st.completedChunks : Rat) / (st.totalChunks : Rat)) * 90

/-- `estimateTimeRemaining`: undefined until a chunk completed or once
all chunks completed, else `Math.ceil(avgChunkTime * remainingChunks)`. -/
def estimateTimeRemaining (st : TrackerState) : Option Int :=
  if st.chunkTimes = [] ∨ st.totalChunks ≤ st.completedChunks then none
  else
    let avgChunkTime := st.chunkTimes.sum / (st.chunkTimes.length : Rat)
    let remainingChunks := st.totalChunks - st.completedChunks
    some ⌈avgChunkTime * (remainingChunks : Rat)⌉

/-- The event built by the private `emitProgress`. -/
def emitProgressEvent (st : TrackerState) : PEvent :=
  { phase := st.currentPhase
    progressVal := calculateProgress st
    currentChunk := some (st.completedChunks + 1)
    totalChunksE := some st.totalChunks
    eta := estimateTimeRemaining st }

/-- `setTotalChunks`. -/
def setTotalChunks (st : TrackerState) (total : Nat) : TrackerState :=
  { st with totalChunks := total }

/-- `setPhase`: updates the phase and emits via `emitProgress`. -/
def setPhase (st : TrackerState) (phase : Phase) : TrackerState × List PEvent :=
  let st := { st with currentPhase := phase }
  (st, [emitProgressEvent st])

/-- `reportChunkingProgress`: emits the raw percentage it is given. -/
def reportChunkingProgress (st : TrackerState) (progressArg : Rat) :
    TrackerState × List PEvent :=
  let st := { st with currentPhase := Phase.chunking }
  (st, [{ phase := .chunking, progressVal := progressArg }])

/-- `startChunk`. -/
def startChunk (st : TrackerState) (chunkIndex : Nat) :
    TrackerState × List PEvent :=
  let st := { st with currentPhase := Phase.compressing }
  (st, [{ phase := .compressing
          progressVal := calculateProgress st
          currentChunk := some (chunkIndex + 1)
          totalChunksE := some st.totalChunks }])

/-- `completeChunk`: increments the counter, pushes the second argument
onto `chunkTimes`, and emits with an ETA. -/
def completeChunk (st : TrackerState) (chunkIndex : Nat) (processingTime : Rat) :
    TrackerState × List PEvent :=
  let st := { st with
    completedChunks := st.completedChunks + 1
    chunkTimes := st.chunkTimes ++ [processingTime] }
  (st, [{ phase := .compressing
          progressVal := calculateProgress st
          currentChunk := some (chunkIndex + 1)
          totalChunksE := some st.totalChunks
          eta := estimateTimeRemaining st }])

/-- `reportMergingProgress`: `Math.min(95, 90 + progress * 0.1)`. -/
def reportMergingProgress (st : TrackerState) (progressArg : Rat) :
    TrackerState × List PEvent :=
  let st := { st with currentPhase := Phase.merging }
  (st, [{ phase := .merging
          progressVal := min 95 (90 + progressArg * (1 / 10)) }])

/-- `reportComplete`. -/
def reportComplete (st : TrackerState) : TrackerState × List PEvent :=
  (st, [{ phase := .merging, progressVal := 100 }])

/-- The per-chunk loop of `compressWithPreset`: for each index,
`startChunk(i)` then `completeChunk(i, compressed.byteLength)` —
the source passes the byte length of the compressed chunk as the second
argument.  `sizes` lists those byte lengths. -/
def runChunkLoop (st : TrackerState) (sizes : List Rat) :
    List Nat → TrackerState × List PEvent
  | [] => (st, [])
  | i :: rest =>
    let s1 := startChunk st i
    let s2 := completeChunk s1.1 i (sizes.getD i 0)
    let s3 := runChunkLoop s2.1 sizes rest
    (s3.1, s1.2 ++ s2.2 ++ s3.2)

/-- Merge-worker sub-progress messages forwarded to
`reportMergingProgress`. -/
def runMergeSub (st : TrackerState) : List Rat → TrackerState × List PEvent
  | [] => (st, [])
  | p :: rest =>
    let s1 := reportMergingProgress st p
    let s2 := runMergeSub s1.1 rest
    (s2.1, s1.2 ++ s2.2)

end ProgressTracker

/-- The full sequence of progress events emitted by one pass of
`compressWithPreset` over a plan of `n` chunks (`src/core/orchestrator.ts`):
setPhase(chunking), setTotalChunks, reportChunkingProgress(50),
reportChunkingProgress(100), per-chunk start/complete, setPhase(merging),
the merge-worker sub-progress (only when the worker strategy is used and
more than one chunk exists), and reportComplete.  `sizes` are the
compressed chunk byte lengths handed to `completeChunk`, `mergeSub` the
percentages posted by the merge worker. -/
def compressWithPresetTrace (n : Nat) (sizes : List Rat) (mergeSub : List Rat)
    (strategy : MergeStrategy) : List PEvent :=
  let st0 : TrackerState := {}
  let a := ProgressTracker.setPhase st0 .chunking
  let st2 := ProgressTracker.setTotalChunks a.1 n
  let b := ProgressTracker.reportChunkingProgress st2 50
  let c := ProgressTracker.reportChunkingProgress b.1 100
  let d := ProgressTracker.runChunkLoop c.1 sizes (List.range n)
  let e := ProgressTracker.setPhase d.1 .merging
  let f :=
    if strategy = MergeStrategy.worker ∧ n ≠ 1 then ProgressTracker.runMergeSub e.1 mergeSub
    else (e.1, [])
  let g := ProgressTracker.reportComplete f.1
  a.2 ++ b.2 ++ c.2 ++ d.2 ++ e.2 ++ f.2 ++ g.2

/-- Specification of the progress values emitted inside the compressing
phase: starting from `k` completed chunks out of `n`, each loop
iteration emits `10 + (k/n)*80` (startChunk) then `10 + ((k+1)/n)*80`
(completeChunk). -/
def compVals (n : Nat) : Nat → List Nat → List Rat
  | _, [] => []
  | k, _ :: rest =>
    (10 + ((k : Rat) / (n : Rat)) * 80) ::
      (10 + (((k + 1 : Nat) : Rat) / (n : Rat)) * 80) :: compVals n (k + 1) rest

/-!  Concrete runs used by the counterexamples and evaluations. -/

/-- A 7-byte buffer starting with the PDF magic. -/
def demoPdf : List Nat := [0x25, 0x50, 0x44, 0x46, 1, 2, 3]

/-- An error whose message classifies as VALIDATION_FAILED
(non-recoverable). -/
def demoValidationError : JSError := .plainErr "validation failed"

/-- A successful pass result used for the balanced preset. -/
def demoBalancedResult : PassResult :=
  { pdf := [9, 9]
    stats :=
      { originalSize := 7, compressedSize := 2, ratioVal := 2 / 7
        bytesSaved := 5, percentageSaved := 500 / 7, chunksProcessed := 1 } }

/-- Pass outcomes where max fails with a non-recoverable validation
error and the milder presets succeed. -/
def demoPassValidationFail : CompressionPreset → Except JSError PassResult
  | .max => .error demoValidationError
  | .balanced => .ok demoBalancedResult
  | .lossless => .ok demoBalancedResult

/-- Pass outcomes where every preset fails with a plain worker error. -/
def demoPassWorkerFail : CompressionPreset → Except JSError PassResult :=
  fun _ => .error (.plainErr "Worker error boom")

/-- Progress trace of a two-chunk pass with compressed chunk byte
lengths 5 and 7, merged through the worker which posts 10/30/90/100. -/
def demoTraceWorker : List PEvent :=
  compressWithPresetTrace 2 [5, 7] [10, 30, 90, 100] .worker

/-- Progress trace of the same two-chunk pass merged in the main
thread (no merge sub-progress). -/
def demoTraceMain : List PEvent :=
  compressWithPresetTrace 2 [5, 7] [] .main

/-!  ## Helper lemmas -/

/-- The fallback chain of max, by unfolding the loop. -/
theorem chain_max :
    getPresetFallbackChain .max = [.max, .balanced, .lossless] := by
  simp [getPresetFallbackChain, getFallbackPreset]

/-- The fallback chain of balanced. -/
theorem chain_balanced :
    getPresetFallbackChain .balanced = [.balanced, .lossless] := by
  simp [getPresetFallbackChain, getFallbackPreset]

/-- The fallback chain of lossless. -/
theorem chain_lossless :
    getPresetFallbackChain .lossless = [.lossless] := by
  simp [getPresetFallbackChain, getFallbackPreset]

/-- `n < ceil(t/c)` iff the first `n` chunks do not cover `t` pages. -/
theorem lt_numChunks_iff {t c n : Nat} (hc : 0 < c) :
    n < numChunks t c ↔ n * c < t := by
  unfold numChunks
  rw [Nat.lt_iff_add_one_le, Nat.le_div_iff_mul_le hc]
  have h : (n + 1) * c = n * c + c := by ring
  omega

/-- A positive page count needs at least one chunk. -/
theorem numChunks_pos {t c : Nat} (hc : 0 < c) (ht : 0 < t) :
    0 < numChunks t c := by
  rw [lt_numChunks_iff hc]
  simpa using ht

/-- All chunks together cover at least `t` pages. -/
theorem le_mul_numChunks {t c : Nat} (hc : 0 < c) :
    t ≤ numChunks t c * c := by
  by_contra hlt
  have h := (lt_numChunks_iff (t := t) (n := numChunks t c) hc).2 (by omega)
  omega

/-- Exactly one chunk when the whole document fits in a chunk. -/
theorem numChunks_eq_one {t c : Nat} (ht : 0 < t) (htc : t ≤ c) :
    numChunks t c = 1 := by
  have hc : 0 < c := lt_of_lt_of_le ht htc
  have h1 := numChunks_pos hc ht
  have h2 : ¬ 1 < numChunks t c := by
    rw [lt_numChunks_iff hc]
    omega
  omega

/-- `numChunks` is the exact ceiling of `t / c`. -/
theorem numChunks_eq_ceil {t c : Nat} (hc : 0 < c) :
    numChunks t c = t / c + (if t % c = 0 then 0 else 1) := by
  have hdm0 : c * (t / c) + t % c = t := Nat.div_add_mod t c
  have hr : t % c < c := Nat.mod_lt _ hc
  set q := t / c with hq
  set r := t % c with hrdef
  have hdm : q * c + r = t := by rw [Nat.mul_comm]; exact hdm0
  clear hdm0
  have h1 : 0 < numChunks t c ↔ 0 * c < t := lt_numChunks_iff hc
  have hlow : ∀ n, n < numChunks t c ↔ n * c < t := fun n => lt_numChunks_iff hc
  by_cases h0 : r = 0
  · rw [if_pos h0, Nat.add_zero]
    have ht : t = q * c := by omega
    have hub : ¬ q < numChunks t c := by
      rw [hlow]
      omega
    rcases Nat.eq_zero_or_pos q with hq0 | hqpos
    · have : ¬ 0 < numChunks t c := by
        rw [h1]
        omega
      omega
    · have hlb : q - 1 < numChunks t c := by
        rw [hlow, Nat.sub_one_mul]
        have : 0 < q * c := by positivity
        omega
      omega
  · rw [if_neg h0]
    have hub : ¬ q + 1 < numChunks t c := by
      rw [hlow, Nat.add_mul, Nat.one_mul]
      omega
    have hlb : q < numChunks t c := by
      rw [hlow]
      omega
    omega

/-- Events of the per-chunk loop: phase/progress pairs follow
`compVals`, and the loop adds one completed chunk per index while
leaving `totalChunks` unchanged. -/
theorem runChunkLoop_spec (sizes : List Rat) :
    ∀ (l : List Nat) (st : TrackerState), st.totalChunks ≠ 0 →
      ((ProgressTracker.runChunkLoop st sizes l).2.map (fun e => (e.phase, e.progressVal))
          = (compVals st.totalChunks st.completedChunks l).map (fun v => (Phase.compressing, v)))
        ∧ (ProgressTracker.runChunkLoop st sizes l).1.totalChunks = st.totalChunks
        ∧ (ProgressTracker.runChunkLoop st sizes l).1.completedChunks
            = st.completedChunks + l.length := by
  intro l
  induction l with
  | nil =>
    intro st hT
    simp [ProgressTracker.runChunkLoop, compVals]
  | cons i rest ih =>
    intro st hT
    obtain ⟨ih1, ih2, ih3⟩ := ih
      { totalChunks := st.totalChunks
        completedChunks := st.completedChunks + 1
        currentPhase := .compressing
        chunkTimes := st.chunkTimes ++ [sizes.getD i 0] } hT
    simp only [List.getD_eq_getElem?_getD] at ih1 ih2 ih3
    refine ⟨?_, ?_, ?_⟩ <;>
      simp [ProgressTracker.runChunkLoop, ProgressTracker.startChunk,
        ProgressTracker.completeChunk, ProgressTracker.calculateProgress, hT,
        compVals, ih1, ih2, ih3, Nat.add_assoc, Nat.add_comm 1 rest.length]

/-- Events of the merge sub-progress loop are state-independent. -/
theorem runMergeSub_events (ps : List Rat) :
    ∀ st, ((ProgressTracker.runMergeSub st ps).2).map (fun e => (e.phase, e.progressVal))
      = ps.map (fun p => (Phase.merging, min 95 (90 + p * (1 / 10)))) := by
  induction ps with
  | nil => intro st; simp [ProgressTracker.runMergeSub]
  | cons p rest ih =>
    intro st
    simp [ProgressTracker.runMergeSub, ProgressTracker.reportMergingProgress, ih]

/-- Phase/progress pairs of a full pass trace. -/
theorem compressWithPresetTrace_pairs (n : Nat) (hn : n ≠ 0)
    (sizes mergeSub : List Rat) (strategy : MergeStrategy) :
    (compressWithPresetTrace n sizes mergeSub strategy).map (fun e => (e.phase, e.progressVal))
      = [(Phase.chunking, (0 : Rat)), (Phase.chunking, 50), (Phase.chunking, 100)]
          ++ (compVals n 0 (List.range n)).map (fun v => (Phase.compressing, v))
          ++ [(Phase.merging, 95)]
          ++ (if strategy = MergeStrategy.worker ∧ n ≠ 1 then
                mergeSub.map (fun p => (Phase.merging, min 95 (90 + p * (1 / 10))))
              else [])
          ++ [(Phase.merging, 100)] := by
  obtain ⟨h1, h2, h3⟩ := runChunkLoop_spec sizes (List.range n)
      { totalChunks := n, completedChunks := 0, currentPhase := .chunking,
        chunkTimes := [] } (by simpa using hn)
  by_cases hw : strategy = MergeStrategy.worker ∧ n ≠ 1 <;>
    simp [compressWithPresetTrace, ProgressTracker.setPhase,
      ProgressTracker.setTotalChunks, ProgressTracker.reportChunkingProgress,
      ProgressTracker.reportComplete, ProgressTracker.emitProgressEvent,
      ProgressTracker.calculateProgress, h1, h2, h3, hn, hw, runMergeSub_events]

/-- One compressing-phase progress value step. -/
theorem compStep_le (n k : Nat) :
    10 + ((k : Rat) / (n : Rat)) * 80 ≤ 10 + (((k + 1 : Nat) : Rat) / (n : Rat)) * 80 := by
  rcases Nat.eq_zero_or_pos n with hn | hn
  · subst hn
    norm_num
  · have hn0 : (0 : Rat) < (n : Rat) := by exact_mod_cast hn
    have hk : ((k : Rat)) ≤ ((k + 1 : Nat) : Rat) := by push_cast; linarith
    have hdiv : (k : Rat) / (n : Rat) ≤ ((k + 1 : Nat) : Rat) / (n : Rat) :=
      (div_le_div_iff_of_pos_right hn0).mpr hk
    linarith

/-- Bounds of the compressing-phase values: all in `[10, 90]` while the
completed count stays within the total. -/
theorem compVals_bounds (n : Nat) (hn : n ≠ 0) :
    ∀ (l : List Nat) (k : Nat), k + l.length ≤ n →
      ∀ v ∈ compVals n k l, 10 ≤ v ∧ v ≤ 90 := by
  have hn0 : (0 : Rat) < (n : Rat) := by
    exact_mod_cast Nat.pos_of_ne_zero hn
  have hbound : ∀ (j : Nat), j ≤ n → 10 ≤ 10 + ((j : Rat) / (n : Rat)) * 80
      ∧ 10 + ((j : Rat) / (n : Rat)) * 80 ≤ 90 := by
    intro j hj
    have hjn : ((j : Rat) / (n : Rat)) ≤ 1 := by
      rw [div_le_one hn0]
      exact_mod_cast hj
    have hj0 : (0 : Rat) ≤ ((j : Rat) / (n : Rat)) := by positivity
    constructor <;> nlinarith
  intro l
  induction l with
  | nil =>
    intro k hk v hv
    simp [compVals] at hv
  | cons i rest ih =>
    intro k hk v hv
    have hlen : k + rest.length + 1 ≤ n := by
      simpa [Nat.add_comm, Nat.add_assoc, Nat.add_left_comm] using hk
    simp only [compVals, List.mem_cons] at hv
    rcases hv with hv | hv | hv
    · subst hv
      exact hbound k (by omega)
    · subst hv
      exact hbound (k + 1) (by omega)
    · exact ih (k + 1) (by omega) v hv

/-- The compressing-phase values are non-decreasing. -/
theorem compVals_chain (n : Nat) :
    ∀ (l : List Nat) (k : Nat), List.Chain' (· ≤ ·) (compVals n k l) := by
  intro l
  induction l with
  | nil =>
    intro k
    simp [compVals]
  | cons i rest ih =>
    intro k
    cases rest with
    | nil =>
      exact List.Chain'.cons (compStep_le n k) (List.chain'_singleton _)
    | cons j rest2 =>
      exact List.Chain'.cons (compStep_le n k)
        (List.Chain'.cons (le_refl _) (ih (k + 1)))

/-- Filtering a phase out of a trace factors through the
phase/progress pairs. -/
theorem filter_map_pair (tr : List PEvent) (ph : Phase) :
    (tr.filter (fun e => e.phase = ph)).map PEvent.progressVal
      = ((tr.map (fun e => (e.phase, e.progressVal))).filter
          (fun q => q.1 = ph)).map Prod.snd := by
  induction tr with
  | nil => rfl
  | cons e tr ih =>
    by_cases h : e.phase = ph <;> simp [h, ih]

/-!  ## Claim theorems -/

/-- Claim C3: for all `totalPages > 0` and `chunkSize > 0` the
per-chunk page ranges of the orchestrator: `[i*chunkSize,
min((i+1)*chunkSize, totalPages))` partition `[0, totalPages)`
contiguously — the first range starts at 0, each range ends where the
next starts, every range is non-empty, and the last range ends at
`totalPages` — and the number of chunks is the ceiling of
`totalPages / chunkSize`; in particular 25 pages at chunk size 10 give
exactly 3 chunks of sizes 10, 10, 5. -/
theorem c3_chunk_plan_partitions (t c : Nat) (ht : 0 < t) (hc : 0 < c) :
    chunkStart c 0 = 0
    ∧ (∀ i, i + 1 < numChunks t c → chunkEnd t c i = chunkStart c (i + 1))
    ∧ (∀ i, i < numChunks t c → chunkStart c i < chunkEnd t c i)
    ∧ chunkEnd t c (numChunks t c - 1) = t
    ∧ numChunks t c = t / c + (if t % c = 0 then 0 else 1)
    ∧ numChunks 25 10 = 3 ∧ chunkSizesList 25 10 = [10, 10, 5] := by
  refine ⟨by simp [chunkStart], ?_, ?_, ?_, numChunks_eq_ceil hc, by decide, by decide⟩
  · intro i hi
    have hcov : (i + 1) * c < t := (lt_numChunks_iff hc).1 hi
    unfold chunkEnd chunkStart
    exact Nat.min_eq_left (Nat.le_of_lt hcov)
  · intro i hi
    have h1 : i * c < t := (lt_numChunks_iff hc).1 hi
    have h2 : i * c < (i + 1) * c := by
      have : (i + 1) * c = i * c + c := by ring
      omega
    unfold chunkEnd chunkStart
    exact lt_min h2 h1
  · have hpos : 0 < numChunks t c := numChunks_pos hc ht
    unfold chunkEnd
    have hsucc : numChunks t c - 1 + 1 = numChunks t c := by omega
    rw [hsucc]
    exact Nat.min_eq_right (le_mul_numChunks hc)

/-- Witness for C3 at `totalPages = 25`, `chunkSize = 10`. -/
theorem c3_chunk_plan_partitions_witness :
    (0 : Nat) < 25 ∧ (0 : Nat) < 10 ∧
      (chunkStart 10 0 = 0
        ∧ (∀ i, i + 1 < numChunks 25 10 → chunkEnd 25 10 i = chunkStart 10 (i + 1))
        ∧ (∀ i, i < numChunks 25 10 → chunkStart 10 i < chunkEnd 25 10 i)
        ∧ chunkEnd 25 10 (numChunks 25 10 - 1) = 25
        ∧ numChunks 25 10 = 25 / 10 + (if 25 % 10 = 0 then 0 else 1)
        ∧ numChunks 25 10 = 3 ∧ chunkSizesList 25 10 = [10, 10, 5]) :=
  ⟨by decide, by decide, c3_chunk_plan_partitions 25 10 (by decide) (by decide)⟩

/-- Claim C4: the degradation chain for max is exactly
[max, balanced, lossless], for balanced exactly [balanced, lossless],
and for lossless exactly [lossless]. -/
theorem c4_fallback_chains :
    getPresetFallbackChain .max = [.max, .balanced, .lossless]
    ∧ getPresetFallbackChain .balanced = [.balanced, .lossless]
    ∧ getPresetFallbackChain .lossless = [.lossless] :=
  ⟨chain_max, chain_balanced, chain_lossless⟩

/-- Claim C2: with graceful degradation enabled, if every preset in the
fallback chain fails with a recoverable error, the call succeeds with
the original input bytes, `compressedSize = originalSize`, ratio 1,
`bytesSaved = 0`, and a warning present. -/
theorem c2_exhausted_recoverable_returns_original
    (buffer : List Nat) (opts : CompressionOptions)
    (f : CompressionPreset → Except JSError PassResult)
    (hv : isValidPDF buffer = true)
    (hgd : opts.gracefulDegradation = true)
    (hf : ∀ p ∈ getPresetFallbackChain opts.preset,
      ∃ e, f p = .error e ∧ isRecoverableError (classifyError e) = true) :
    ∃ r, (orchestrateCompression buffer opts f).1 = .ok r
      ∧ r.pdf = buffer
      ∧ r.stats.compressedSize = r.stats.originalSize
      ∧ r.stats.ratioVal = 1
      ∧ r.stats.bytesSaved = 0
      ∧ r.warning.isSome = true := by
  obtain ⟨p, gd, hop⟩ := opts
  simp only at hgd hf ⊢
  subst hgd
  refine ⟨fallbackResult buffer p, ?_, by simp [fallbackResult], by simp [fallbackResult],
    by simp [fallbackResult], by simp [fallbackResult], by simp [fallbackResult, fallbackWarningMsg]⟩
  cases p with
  | max =>
    obtain ⟨e1, hf1, hr1⟩ := hf .max (by rw [chain_max]; simp)
    obtain ⟨e2, hf2, hr2⟩ := hf .balanced (by rw [chain_max]; simp)
    obtain ⟨e3, hf3, hr3⟩ := hf .lossless (by rw [chain_max]; simp)
    cases hop <;>
      simp [orchestrateCompression, hv, chain_max, tryPresets, hf1, hf2, hf3,
        handleErrorWithGracefulDegradation, hr1, hr2, hr3, getFallbackPreset,
        LoopOutcome.withLastError, LoopOutcome.consAttempt, List.getLastD]
  | balanced =>
    obtain ⟨e1, hf1, hr1⟩ := hf .balanced (by rw [chain_balanced]; simp)
    obtain ⟨e2, hf2, hr2⟩ := hf .lossless (by rw [chain_balanced]; simp)
    cases hop <;>
      simp [orchestrateCompression, hv, chain_balanced, tryPresets, hf1, hf2,
        handleErrorWithGracefulDegradation, hr1, hr2, getFallbackPreset,
        LoopOutcome.withLastError, LoopOutcome.consAttempt, List.getLastD]
  | lossless =>
    obtain ⟨e1, hf1, hr1⟩ := hf .lossless (by rw [chain_lossless]; simp)
    cases hop <;>
      simp [orchestrateCompression, hv, chain_lossless, tryPresets, hf1,
        handleErrorWithGracefulDegradation, hr1, getFallbackPreset,
        LoopOutcome.withLastError, LoopOutcome.consAttempt, List.getLastD]

/-- Witness for C2: a concrete all-recoverable-failures run. -/
theorem c2_exhausted_recoverable_returns_original_witness :
    isValidPDF demoPdf = true
    ∧ ({ preset := .max, gracefulDegradation := true, hasOnProgress := true }
        : CompressionOptions).gracefulDegradation = true
    ∧ (∀ p ∈ getPresetFallbackChain (CompressionPreset.max),
        ∃ e, demoPassWorkerFail p = .error e
          ∧ isRecoverableError (classifyError e) = true)
    ∧ (∃ r, (orchestrateCompression demoPdf
          { preset := .max, gracefulDegradation := true, hasOnProgress := true }
          demoPassWorkerFail).1 = .ok r
        ∧ r.pdf = demoPdf
        ∧ r.stats.compressedSize = r.stats.originalSize
        ∧ r.stats.ratioVal = 1
        ∧ r.stats.bytesSaved = 0
        ∧ r.warning.isSome = true) := by
  refine ⟨by decide, rfl, ?_, ?_⟩
  · intro p hp
    exact ⟨.plainErr "Worker error boom", rfl, by decide⟩
  · exact c2_exhausted_recoverable_returns_original demoPdf
      { preset := .max, gracefulDegradation := true, hasOnProgress := true }
      demoPassWorkerFail (by decide) rfl
      (fun p hp => ⟨.plainErr "Worker error boom", rfl, by decide⟩)

/-- Claim C1 (counterexample): with graceful degradation enabled, a
non-recoverable VALIDATION_FAILED failure of the max pass does not stop
the chain when no onProgress callback is supplied — the balanced preset
is attempted next and its result is returned — and when an onProgress
callback is supplied the chain does stop, but the call resolves with the
original-bytes fallback result instead of rejecting. -/
theorem c1_counterexample :
    isRecoverableError (classifyError demoValidationError) = false
    ∧ (orchestrateCompression demoPdf
        { preset := .max, gracefulDegradation := true, hasOnProgress := false }
        demoPassValidationFail).2 = [.max, .balanced]
    ∧ (orchestrateCompression demoPdf
        { preset := .max, gracefulDegradation := true, hasOnProgress := false }
        demoPassValidationFail).1 = .ok (mkSuccessResult .max .balanced demoBalancedResult)
    ∧ (orchestrateCompression demoPdf
        { preset := .max, gracefulDegradation := true, hasOnProgress := true }
        demoPassValidationFail).2 = [.max]
    ∧ (orchestrateCompression demoPdf
        { preset := .max, gracefulDegradation := true, hasOnProgress := true }
        demoPassValidationFail).1 = .ok (fallbackResult demoPdf .max) := by
  refine ⟨by decide, ?_, ?_, ?_, ?_⟩ <;>
    simp [orchestrateCompression, chain_max, tryPresets, demoPassValidationFail,
      demoPdf, isValidPDF, PDF_MAGIC_BYTES, handleErrorWithGracefulDegradation,
      demoValidationError, classifyError, lowerChars, includesSubstr, containsSeq,
      isRecoverableError, getFallbackPreset, LoopOutcome.withLastError,
      LoopOutcome.consAttempt, List.getLastD]

/-- Claim C1 (amended): when an onProgress callback is supplied, a pass
failing with a non-recoverable error stops the chain — only the failing
preset is attempted — and the call then resolves with the original-bytes
fallback result when graceful degradation is enabled and rejects with
that error when it is disabled; when no onProgress callback is supplied,
the chain continues to the next preset even after a non-recoverable
error. -/
theorem c1_amended :
    (∀ (buffer : List Nat) (opts : CompressionOptions)
        (f : CompressionPreset → Except JSError PassResult) (e : JSError),
      isValidPDF buffer = true →
      opts.hasOnProgress = true →
      f opts.preset = .error e →
      isRecoverableError (classifyError e) = false →
      (orchestrateCompression buffer opts f).2 = [opts.preset]
        ∧ (orchestrateCompression buffer opts f).1 =
            (if opts.gracefulDegradation then .ok (fallbackResult buffer opts.preset)
             else .error e))
    ∧ (∀ (buffer : List Nat) (opts : CompressionOptions)
        (f : CompressionPreset → Except JSError PassResult) (e : JSError),
      isValidPDF buffer = true →
      opts.hasOnProgress = false →
      opts.gracefulDegradation = true →
      opts.preset = .max →
      f .max = .error e →
      CompressionPreset.balanced ∈ (orchestrateCompression buffer opts f).2) := by
  constructor
  · intro buffer opts f e hv hop hf hr
    obtain ⟨p, gd, hopF⟩ := opts
    simp only at hop hf hr ⊢
    subst hop
    cases gd with
    | false =>
      constructor <;>
        simp [orchestrateCompression, hv, tryPresets, hf, List.getLastD]
    | true =>
      cases p <;>
        constructor <;>
          simp [orchestrateCompression, hv, chain_max, chain_balanced, chain_lossless,
            tryPresets, hf, handleErrorWithGracefulDegradation, hr, getFallbackPreset,
            LoopOutcome.withLastError, LoopOutcome.consAttempt, List.getLastD]
  · intro buffer opts f e hv hop hgd hp hf
    obtain ⟨p, gd, hopF⟩ := opts
    simp only at hop hgd hp hf ⊢
    subst hop; subst hgd; subst hp
    cases hfb : f .balanced with
    | ok r =>
      simp [orchestrateCompression, hv, chain_max, tryPresets, hf, hfb,
        LoopOutcome.withLastError, LoopOutcome.consAttempt, List.getLastD]
    | error e2 =>
      cases hfl : f .lossless with
      | ok r =>
        simp [orchestrateCompression, hv, chain_max, tryPresets, hf, hfb, hfl,
          LoopOutcome.withLastError, LoopOutcome.consAttempt, List.getLastD]
      | error e3 =>
        simp [orchestrateCompression, hv, chain_max, tryPresets, hf, hfb, hfl,
          LoopOutcome.withLastError, LoopOutcome.consAttempt, List.getLastD]

/-- Witness for C1 (amended), first part at a concrete run. -/
theorem c1_amended_witness :
    isValidPDF demoPdf = true
    ∧ ({ preset := .max, gracefulDegradation := true, hasOnProgress := true }
        : CompressionOptions).hasOnProgress = true
    ∧ demoPassValidationFail .max = .error demoValidationError
    ∧ isRecoverableError (classifyError demoValidationError) = false
    ∧ ((orchestrateCompression demoPdf
          { preset := .max, gracefulDegradation := true, hasOnProgress := true }
          demoPassValidationFail).2 = [.max]
        ∧ (orchestrateCompression demoPdf
            { preset := .max, gracefulDegradation := true, hasOnProgress := true }
            demoPassValidationFail).1 =
              (if ({ preset := .max, gracefulDegradation := true, hasOnProgress := true }
                  : CompressionOptions).gracefulDegradation then
                .ok (fallbackResult demoPdf .max)
              else .error demoValidationError)) :=
  ⟨by decide, rfl, rfl, by decide,
    c1_amended.1 demoPdf
      { preset := .max, gracefulDegradation := true, hasOnProgress := true }
      demoPassValidationFail demoValidationError (by decide) rfl rfl (by decide)⟩

/-- Claim C6 (evaluation of the failing input): with graceful
degradation disabled and a pass that rejects with a plain worker Error,
the call rejects with that raw Error unchanged — not with a
CompressionError carrying the attempted preset, original size, phase
and cause (the `createCompressionError` wrapper is never invoked by the
orchestrator). -/
theorem c6_raw_error_rethrown :
    (orchestrateCompression demoPdf
        { preset := .balanced, gracefulDegradation := false, hasOnProgress := false }
        demoPassWorkerFail).1 = .error (.plainErr "Worker error boom")
    ∧ (∀ m p s ph u,
        (orchestrateCompression demoPdf
          { preset := .balanced, gracefulDegradation := false, hasOnProgress := false }
          demoPassWorkerFail).1 ≠ .error (.compressionErr m p s ph u)) := by
  constructor
  · simp [orchestrateCompression, tryPresets, demoPassWorkerFail, demoPdf,
      isValidPDF, PDF_MAGIC_BYTES, List.getLastD]
  · intro m p s ph u
    simp [orchestrateCompression, tryPresets, demoPassWorkerFail, demoPdf,
      isValidPDF, PDF_MAGIC_BYTES, List.getLastD]

/-- Claim C9: a zero-length input buffer makes `compress` reject with
`CompressionError("Empty PDF buffer", lossless, 0)` — not a TypeError —
independently of the preset option, the degradation option, the
onProgress option, the WASM-load outcome, and the per-preset passes
(so before any engine loading, validation, or chunk processing). -/
theorem c9_empty_buffer_rejects_early
    (presetOpt : Option String) (gdOpt : Option Bool) (hasOnProgress : Bool)
    (wasmLoad : Except String Unit)
    (f : CompressionPreset → Except JSError PassResult) :
    compress [] presetOpt gdOpt hasOnProgress wasmLoad f
      = .error (.compressionErr "Empty PDF buffer" .lossless 0 none none) := rfl

/-- Claim C8: a document that fits in a single chunk
(`0 < totalPages ≤ chunkSize`) yields exactly one chunk, the merge step
passes that single chunk through unchanged under either merge strategy,
and the stats report one chunk processed. -/
theorem c8_single_chunk_passthrough (t c : Nat) (extract : Nat → Nat → List Nat)
    (cf : Nat → List Nat → List Nat) (mrg : List (List Nat) → List Nat)
    (strategy : MergeStrategy) (ht : 0 < t) (htc : t ≤ c) :
    (compressWithPresetModel t c extract cf mrg strategy).pdf = cf 0 (extract 0 t)
    ∧ (compressWithPresetModel t c extract cf mrg strategy).stats.chunksProcessed = 1
    ∧ ∀ (b : List Nat) (mrg2 : List (List Nat) → List Nat) (s2 : MergeStrategy),
        mergeChunksModel s2 [b] mrg2 = b := by
  have h1 : numChunks t c = 1 := numChunks_eq_one ht htc
  have hmin : min c t = t := Nat.min_eq_right htc
  have hr1 : List.range 1 = [0] := rfl
  refine ⟨?_, ?_, ?_⟩
  · simp [compressWithPresetModel, h1, hmin, mergeChunksModel, hr1]
  · simp [compressWithPresetModel, h1]
  · intro b mrg2 s2
    simp [mergeChunksModel]

/-- Witness for C8 with a 3-page document at chunk size 10. -/
theorem c8_single_chunk_passthrough_witness :
    (0 : Nat) < 3 ∧ (3 : Nat) ≤ 10 ∧
      ((compressWithPresetModel 3 10 (fun a b => [a, b]) (fun i l => i :: l)
          (fun _ => []) .worker).pdf = (fun (i : Nat) (l : List Nat) => i :: l) 0
            ((fun (a b : Nat) => [a, b]) 0 3)
        ∧ (compressWithPresetModel 3 10 (fun a b => [a, b]) (fun i l => i :: l)
            (fun _ => []) .worker).stats.chunksProcessed = 1
        ∧ ∀ (b : List Nat) (mrg2 : List (List Nat) → List Nat) (s2 : MergeStrategy),
            mergeChunksModel s2 [b] mrg2 = b) :=
  ⟨by decide, by decide,
    c8_single_chunk_passthrough 3 10 (fun a b => [a, b]) (fun i l => i :: l)
      (fun _ => []) .worker (by decide) (by decide)⟩

/-- Claim C10: the stats of a compression pass are arithmetically
consistent — `bytesSaved = originalSize - compressedSize`,
`ratio = compressedSize / originalSize`,
`percentageSaved = (bytesSaved / originalSize) * 100` — where
`originalSize` is the sum of the extracted per-chunk input sizes and
`compressedSize` is the byte length of the merged artifact. -/
theorem c10_stats_consistency (t c : Nat) (extract : Nat → Nat → List Nat)
    (cf : Nat → List Nat → List Nat) (mrg : List (List Nat) → List Nat)
    (strategy : MergeStrategy) :
    (compressWithPresetModel t c extract cf mrg strategy).stats.bytesSaved
        = ((compressWithPresetModel t c extract cf mrg strategy).stats.originalSize : Int)
          - ((compressWithPresetModel t c extract cf mrg strategy).stats.compressedSize : Int)
    ∧ (compressWithPresetModel t c extract cf mrg strategy).stats.ratioVal
        = ((compressWithPresetModel t c extract cf mrg strategy).stats.compressedSize : Rat)
          / ((compressWithPresetModel t c extract cf mrg strategy).stats.originalSize : Rat)
    ∧ (compressWithPresetModel t c extract cf mrg strategy).stats.percentageSaved
        = (((compressWithPresetModel t c extract cf mrg strategy).stats.bytesSaved : Rat)
          / ((compressWithPresetModel t c extract cf mrg strategy).stats.originalSize : Rat)) * 100
    ∧ (compressWithPresetModel t c extract cf mrg strategy).stats.originalSize
        = ((List.range (numChunks t c)).map
            (fun i => (extract (chunkStart c i) (chunkEnd t c i)).length)).sum
    ∧ (compressWithPresetModel t c extract cf mrg strategy).stats.compressedSize
        = (compressWithPresetModel t c extract cf mrg strategy).pdf.length := by
  refine ⟨?_, ?_, ?_, ?_, ?_⟩
  · simp [compressWithPresetModel]
  · simp [compressWithPresetModel]
  · simp [compressWithPresetModel]
  · simp only [compressWithPresetModel, chunkStart, chunkEnd, List.map_map,
      Function.comp_def, Nat.succ_mul]
  · simp [compressWithPresetModel]

/-- Claim C5 (counterexample): in a concrete two-chunk run merged
through the worker, the chunking phase emits the raw percentages 50 and
100 — outside the claimed [0,10] band — and the merging-phase value
sequence 95, 91, 93, 95, 95, 100 is not non-decreasing. -/
theorem c5_counterexample :
    demoTraceWorker.map (fun e => (e.phase, e.progressVal))
      = [(Phase.chunking, (0 : Rat)), (Phase.chunking, 50), (Phase.chunking, 100),
         (Phase.compressing, 10), (Phase.compressing, 50),
         (Phase.compressing, 50), (Phase.compressing, 90),
         (Phase.merging, 95), (Phase.merging, 91), (Phase.merging, 93),
         (Phase.merging, 95), (Phase.merging, 95), (Phase.merging, 100)]
    ∧ ¬ (∀ e ∈ demoTraceWorker, e.phase = Phase.chunking → e.progressVal ≤ 10)
    ∧ ((demoTraceWorker.filter (fun e => e.phase = Phase.merging)).map
        PEvent.progressVal = [95, 91, 93, 95, 95, 100])
    ∧ ¬ List.Chain' (· ≤ ·) ((demoTraceWorker.filter
        (fun e => e.phase = Phase.merging)).map PEvent.progressVal) := by
  have hmap : demoTraceWorker.map (fun e => (e.phase, e.progressVal))
      = [(Phase.chunking, (0 : Rat)), (Phase.chunking, 50), (Phase.chunking, 100),
         (Phase.compressing, 10), (Phase.compressing, 50),
         (Phase.compressing, 50), (Phase.compressing, 90),
         (Phase.merging, 95), (Phase.merging, 91), (Phase.merging, 93),
         (Phase.merging, 95), (Phase.merging, 95), (Phase.merging, 100)] := by
    norm_num [demoTraceWorker, compressWithPresetTrace, ProgressTracker.setPhase,
      ProgressTracker.setTotalChunks, ProgressTracker.reportChunkingProgress,
      ProgressTracker.runChunkLoop, ProgressTracker.startChunk,
      ProgressTracker.completeChunk, ProgressTracker.reportComplete,
      ProgressTracker.runMergeSub, ProgressTracker.reportMergingProgress,
      ProgressTracker.emitProgressEvent, ProgressTracker.estimateTimeRemaining,
      ProgressTracker.calculateProgress, List.range_succ]
  have hf : (demoTraceWorker.filter (fun e => e.phase = Phase.merging)).map
      PEvent.progressVal = [95, 91, 93, 95, 95, 100] := by
    rw [filter_map_pair, hmap]
    simp [List.filter_cons]
  refine ⟨hmap, ?_, hf, ?_⟩
  · intro hall
    have hmem : ((Phase.chunking, (50 : Rat)))
        ∈ demoTraceWorker.map (fun e => (e.phase, e.progressVal)) := by
      rw [hmap]
      norm_num
    obtain ⟨e, he, hpair⟩ := List.mem_map.mp hmem
    have hph : e.phase = Phase.chunking := congrArg Prod.fst hpair
    have hv : e.progressVal = 50 := congrArg Prod.snd hpair
    have := hall e he hph
    rw [hv] at this
    norm_num at this
  · rw [hf]
    intro hch
    have h1 : (95 : Rat) ≤ 91 := (List.chain'_cons.mp hch).1
    norm_num at h1

/-- Claim C5 (amended): during the compressing phase the emitted values
equal `10 + 80 * completed/total`, lie in [10,90], and are
non-decreasing; merging-phase values lie in [90,100] provided the merge
worker posts sub-progress within [0,100]; chunking-phase values are the
raw reported percentages, bounded only by [0,100] (the source emits 50
and 100 there), and the merging sequence is not claimed monotone (the
phase-entry value 95 may precede scaled values as low as 90). -/
theorem c5_amended (n : Nat) (sizes mergeSub : List Rat) (strategy : MergeStrategy)
    (hn : 0 < n) (hm : ∀ p ∈ mergeSub, 0 ≤ p ∧ p ≤ 100) :
    (∀ e ∈ compressWithPresetTrace n sizes mergeSub strategy,
        e.phase = Phase.compressing → 10 ≤ e.progressVal ∧ e.progressVal ≤ 90)
    ∧ ((compressWithPresetTrace n sizes mergeSub strategy).filter
          (fun e => e.phase = Phase.compressing)).map PEvent.progressVal
        = compVals n 0 (List.range n)
    ∧ List.Chain' (· ≤ ·)
        (((compressWithPresetTrace n sizes mergeSub strategy).filter
          (fun e => e.phase = Phase.compressing)).map PEvent.progressVal)
    ∧ (∀ e ∈ compressWithPresetTrace n sizes mergeSub strategy,
        e.phase = Phase.merging → 90 ≤ e.progressVal ∧ e.progressVal ≤ 100)
    ∧ (∀ e ∈ compressWithPresetTrace n sizes mergeSub strategy,
        e.phase = Phase.chunking → 0 ≤ e.progressVal ∧ e.progressVal ≤ 100) := by
  have hn' : n ≠ 0 := by omega
  have hpairs := compressWithPresetTrace_pairs n hn' sizes mergeSub strategy
  have hmem : ∀ e ∈ compressWithPresetTrace n sizes mergeSub strategy,
      (e.phase, e.progressVal)
        ∈ ([(Phase.chunking, (0 : Rat)), (Phase.chunking, 50), (Phase.chunking, 100)]
            ++ (compVals n 0 (List.range n)).map (fun v => (Phase.compressing, v))
            ++ [(Phase.merging, 95)]
            ++ (if strategy = MergeStrategy.worker ∧ n ≠ 1 then
                  mergeSub.map (fun p => (Phase.merging, min 95 (90 + p * (1 / 10))))
                else [])
            ++ [(Phase.merging, 100)]) := by
    intro e he
    have h := List.mem_map_of_mem (fun e => (e.phase, e.progressVal)) he
    rwa [hpairs] at h
  have hfilter : ((compressWithPresetTrace n sizes mergeSub strategy).filter
        (fun e => e.phase = Phase.compressing)).map PEvent.progressVal
      = compVals n 0 (List.range n) := by
    rw [filter_map_pair, hpairs]
    by_cases hw : strategy = MergeStrategy.worker ∧ n ≠ 1 <;>
      simp [hw, List.filter_append, List.filter_map, Function.comp_def,
        List.map_map]
  refine ⟨?_, hfilter, ?_, ?_, ?_⟩
  · intro e he hph
    have h := hmem e he
    rw [hph] at h
    rcases List.mem_append.mp h with h | h
    swap
    · simp at h
    rcases List.mem_append.mp h with h | h
    swap
    · by_cases hw : strategy = MergeStrategy.worker ∧ n ≠ 1
      · rw [if_pos hw] at h
        simp at h
      · rw [if_neg hw] at h
        simp at h
    rcases List.mem_append.mp h with h | h
    swap
    · simp at h
    rcases List.mem_append.mp h with h | h
    · simp at h
    · simp only [List.mem_map] at h
      obtain ⟨v, hv, hveq⟩ := h
      have hv2 : v = e.progressVal := congrArg Prod.snd hveq
      rw [← hv2]
      exact compVals_bounds n hn' (List.range n) 0 (by simp) v hv
  · rw [hfilter]
    exact compVals_chain n (List.range n) 0
  · intro e he hph
    have h := hmem e he
    rw [hph] at h
    rcases List.mem_append.mp h with h | h
    swap
    · simp at h
      rw [h]
      norm_num
    rcases List.mem_append.mp h with h | h
    swap
    · by_cases hw : strategy = MergeStrategy.worker ∧ n ≠ 1
      · rw [if_pos hw] at h
        simp only [List.mem_map] at h
        obtain ⟨p, hp, hpe⟩ := h
        have hpv : min (95 : Rat) (90 + p * (1 / 10)) = e.progressVal :=
          congrArg Prod.snd hpe
        obtain ⟨hp0, hp100⟩ := hm p hp
        rw [← hpv]
        constructor
        · apply le_min
          · norm_num
          · nlinarith
        · calc min (95 : Rat) (90 + p * (1 / 10)) ≤ 95 := min_le_left _ _
            _ ≤ 100 := by norm_num
      · rw [if_neg hw] at h
        simp at h
    rcases List.mem_append.mp h with h | h
    swap
    · simp at h
      rw [h]
      norm_num
    rcases List.mem_append.mp h with h | h
    · simp at h
    · simp only [List.mem_map] at h
      obtain ⟨v, hv, hveq⟩ := h
      have := congrArg Prod.fst hveq
      simp at this
  · intro e he hph
    have h := hmem e he
    rw [hph] at h
    rcases List.mem_append.mp h with h | h
    swap
    · simp at h
    rcases List.mem_append.mp h with h | h
    swap
    · by_cases hw : strategy = MergeStrategy.worker ∧ n ≠ 1
      · rw [if_pos hw] at h
        simp only [List.mem_map] at h
        obtain ⟨p, hp, hpe⟩ := h
        have := congrArg Prod.fst hpe
        simp at this
      · rw [if_neg hw] at h
        simp at h
    rcases List.mem_append.mp h with h | h
    swap
    · simp at h
    rcases List.mem_append.mp h with h | h
    · simp at h
      rcases h with h | h | h <;> rw [h] <;> norm_num
    · simp only [List.mem_map] at h
      obtain ⟨v, hv, hveq⟩ := h
      have := congrArg Prod.fst hveq
      simp at this

/-- Witness for C5 (amended) at a concrete two-chunk worker-merged run. -/
theorem c5_amended_witness :
    (0 : Nat) < 2
    ∧ (∀ p ∈ [(10 : Rat)], (0 : Rat) ≤ p ∧ p ≤ 100)
    ∧ ((∀ e ∈ compressWithPresetTrace 2 [5, 7] [10] .worker,
          e.phase = Phase.compressing → 10 ≤ e.progressVal ∧ e.progressVal ≤ 90)
        ∧ ((compressWithPresetTrace 2 [5, 7] [10] .worker).filter
              (fun e => e.phase = Phase.compressing)).map PEvent.progressVal
            = compVals 2 0 (List.range 2)
        ∧ List.Chain' (· ≤ ·)
            (((compressWithPresetTrace 2 [5, 7] [10] .worker).filter
              (fun e => e.phase = Phase.compressing)).map PEvent.progressVal)
        ∧ (∀ e ∈ compressWithPresetTrace 2 [5, 7] [10] .worker,
            e.phase = Phase.merging → 90 ≤ e.progressVal ∧ e.progressVal ≤ 100)
        ∧ (∀ e ∈ compressWithPresetTrace 2 [5, 7] [10] .worker,
            e.phase = Phase.chunking → 0 ≤ e.progressVal ∧ e.progressVal ≤ 100)) :=
  ⟨by norm_num, by norm_num,
    c5_amended 2 [5, 7] [10] .worker (by norm_num) (by norm_num)⟩

/-- Claim C7 (evaluation of the failing input): in a two-chunk run whose
compressed chunks have byte lengths 5 and 7, the only defined
estimatedTimeRemaining — emitted when the first of the two chunks
completes — equals 5, the byte length the orchestrator passed to
`completeChunk` as its processingTime argument, not any measured
duration; before the first completion and from the last completion on it
is undefined. -/
theorem c7_eta_evaluation :
    demoTraceMain.map PEvent.eta
      = [none, none, none, none, some 5, none, none, none, none] := by
  norm_num [demoTraceMain, compressWithPresetTrace, ProgressTracker.setPhase,
    ProgressTracker.setTotalChunks, ProgressTracker.reportChunkingProgress,
    ProgressTracker.runChunkLoop, ProgressTracker.startChunk,
    ProgressTracker.completeChunk, ProgressTracker.reportComplete,
    ProgressTracker.runMergeSub, ProgressTracker.reportMergingProgress,
    ProgressTracker.emitProgressEvent, ProgressTracker.estimateTimeRemaining,
    ProgressTracker.calculateProgress, List.range_succ]

end QrPdfCompress
